/-
Verification of the browserware browser-detection engine.

This file gives a shallow embedding, in Lean 4, of the parts of the
browserware repository relevant to its specification: the data model
(`BrowserFamily`, `BrowserVariant`, `Browser`), the known-browser registry,
the Linux desktop-file detector (desktop-file parsing, `Exec`-field
resolution, version-string parsing, dedup loop), the macOS nested-app
filter, the orchestration-level family filter, and the JSON interchange
encoding.  Pure Rust functions become Lean functions; calls into the OS
(the `which` lookup and the `--version` subprocess) become explicit
function parameters; strings are modelled as sequences of characters
(all inputs of interest are ASCII, so Rust byte indices coincide with
character indices).
-/
import Mathlib

set_option maxHeartbeats 1000000

/-! ## Character-list string helpers

Models of the Rust `str` primitives used by the source code, implemented
over `List Char`. -/

/-- Model of Rust `str::split` on a separator character: splits into the
(possibly empty) pieces between occurrences of `sep`. -/
def splitOnChar (sep : Char) (l : List Char) : List (List Char) :=
  l.foldr
    (fun c acc =>
      if c == sep then [] :: acc
      else
        match acc with
        | [] => [[c]]
        | a :: as_ => (c :: a) :: as_)
    [[]]

/-- Model of Rust `str::trim`: removes leading and trailing whitespace. -/
def trimChars (l : List Char) : List Char :=
  ((l.dropWhile Char.isWhitespace).reverse.dropWhile Char.isWhitespace).reverse

/-- Raw whitespace split (splitting at every whitespace character,
keeping empty pieces). -/
def wsSplitRaw (l : List Char) : List (List Char) :=
  l.foldr
    (fun c acc =>
      if c.isWhitespace then [] :: acc
      else
        match acc with
        | [] => [[c]]
        | a :: as_ => (c :: a) :: as_)
    [[]]

/-- Model of Rust `str::split_whitespace`: maximal runs of
non-whitespace characters. -/
def wsTokens (l : List Char) : List (List Char) :=
  (wsSplitRaw l).filter (· ≠ [])

/-- Model of Rust `str::split_whitespace` at the `String` level. -/
def splitWhitespace (s : String) : List String :=
  (wsTokens s.data).map String.mk

/-- Model of Rust `str::starts_with(char)`. -/
def startsWithChar (s : String) (c : Char) : Bool :=
  match s.data with
  | [] => false
  | d :: _ => d == c

/-- Model of Rust `str::contains(char)`. -/
def charContains (s : String) (c : Char) : Bool :=
  s.data.contains c

/-- Substring containment on character lists (model of Rust
`str::contains(&str)`): `needle` occurs contiguously inside `hay`. -/
def containsSeq (needle : List Char) : List Char → Bool
  | [] => needle.isEmpty
  | c :: cs => needle.isPrefixOf (c :: cs) || containsSeq needle cs

/-- Model of Rust `str::starts_with(&str)` at the `String` level. -/
def strStartsWith (s pre : String) : Bool :=
  pre.data.isPrefixOf s.data

/-- Auxiliary scan for `rfindSub`: the greatest index `i ≤ bound` at which
`needle` occurs in `hay`, or `none`. -/
def rfindAux (needle hay : List Char) : Nat → Option Nat
  | 0 => if needle.isPrefixOf hay then some 0 else none
  | i + 1 =>
    if needle.isPrefixOf (hay.drop (i + 1)) then some (i + 1)
    else rfindAux needle hay i

/-- Model of Rust `str::rfind(&str)`: index of the last occurrence of
`needle` in `hay`. -/
def rfindSub (needle hay : List Char) : Option Nat :=
  rfindAux needle hay hay.length

/-- Model of Rust `str::split_once(char)`: splits at the first occurrence
of `sep`, which is removed; `none` if `sep` does not occur. -/
def splitOnceChar (sep : Char) (l : List Char) : Option (List Char × List Char) :=
  if l.contains sep then
    some (l.takeWhile (· != sep), (l.dropWhile (· != sep)).tail)
  else
    none

/-! ## Data model (`browserware-types`)

`src/crates/browserware-types/src/browser.rs` and `variant.rs`. -/

/-- Release channels for Chromium-based browsers. -/
inductive ChromiumChannel
  | Stable
  | Beta
  | Dev
  | Canary
deriving DecidableEq, Repr

/-- Release channels for Firefox-based browsers. -/
inductive FirefoxChannel
  | Stable
  | Beta
  | Dev
  | Nightly
  | Esr
deriving DecidableEq, Repr

/-- Release channels for WebKit-based browsers. -/
inductive WebKitChannel
  | Stable
  | TechnologyPreview
deriving DecidableEq, Repr

/-- Browser engine family. -/
inductive BrowserFamily
  | Chromium
  | Firefox
  | WebKit
  | Other
deriving DecidableEq, Repr

/-- Browser variant combining engine family and release channel. -/
inductive BrowserVariant
  | Chromium (c : ChromiumChannel)
  | Firefox (c : FirefoxChannel)
  | WebKit (c : WebKitChannel)
  | Single (family : BrowserFamily)
deriving DecidableEq, Repr

/-- Rust `BrowserVariant::family`: the engine family of a variant
(`variant.rs` lines 130–138). -/
def BrowserVariant.family : BrowserVariant → BrowserFamily
  | .Chromium _ => .Chromium
  | .Firefox _ => .Firefox
  | .WebKit _ => .WebKit
  | .Single family => family

/-- Rust `BrowserId` is a newtype over `String` (structural equality),
modelled transparently. -/
abbrev BrowserId := String

/-- Information about an installed browser (`browser.rs` lines 53–68).
`executable : PathBuf` is modelled as its string form. -/
structure Browser where
  id : BrowserId
  name : String
  variant : BrowserVariant
  version : Option String
  executable : String
  bundle_id : Option String
deriving DecidableEq, Repr

/-- Rust `Browser::new`: minimal constructor; variant defaults to
`Single(Other)`, version and bundle id to `None`. -/
def Browser.new (id name executable : String) : Browser :=
  { id := id
    name := name
    variant := .Single .Other
    version := none
    executable := executable
    bundle_id := none }

/-- Rust `Browser::family`: derived from the variant. -/
def Browser.family (b : Browser) : BrowserFamily :=
  b.variant.family

/-- Rust `Browser::with_variant`. -/
def Browser.with_variant (b : Browser) (v : BrowserVariant) : Browser :=
  { b with variant := v }

/-- Rust `Browser::with_version`. -/
def Browser.with_version (b : Browser) (v : String) : Browser :=
  { b with version := some v }

/-- Rust `Browser::with_bundle_id`. -/
def Browser.with_bundle_id (b : Browser) (s : String) : Browser :=
  { b with bundle_id := some s }

/-- Rust `maybe_with_version` extension helper (both platform modules). -/
def Browser.maybe_with_version (b : Browser) : Option String → Browser
  | some v => b.with_version v
  | none => b

/-! ## Known-browser registry (`browserware-detect/src/registry.rs`) -/

/-- Static metadata for a known browser (`registry.rs` lines 24–52). -/
structure BrowserMeta where
  id : String
  name : String
  variant : BrowserVariant
  macos_bundle_ids : List String
  windows_registry_keys : List String
  linux_desktop_ids : List String
deriving DecidableEq, Repr

/-- Rust `BrowserMeta::available_on_macos`. -/
def BrowserMeta.available_on_macos (m : BrowserMeta) : Bool :=
  !m.macos_bundle_ids.isEmpty

/-- Rust `BrowserMeta::available_on_windows`. -/
def BrowserMeta.available_on_windows (m : BrowserMeta) : Bool :=
  !m.windows_registry_keys.isEmpty

/-- Rust `BrowserMeta::available_on_linux`. -/
def BrowserMeta.available_on_linux (m : BrowserMeta) : Bool :=
  !m.linux_desktop_ids.isEmpty

/-- Rust `BrowserMeta::family`. -/
def BrowserMeta.family (m : BrowserMeta) : BrowserFamily :=
  m.variant.family

/-- The static registry `KNOWN_BROWSERS` (`registry.rs` lines 85–365),
transcribed entry by entry. -/
def KNOWN_BROWSERS : List BrowserMeta := [
  { id := "chrome", name := "Google Chrome",
    variant := .Chromium .Stable,
    macos_bundle_ids := ["com.google.Chrome"],
    windows_registry_keys := ["Google Chrome"],
    linux_desktop_ids := ["google-chrome", "google-chrome-stable"] },
  { id := "chrome-beta", name := "Google Chrome Beta",
    variant := .Chromium .Beta,
    macos_bundle_ids := ["com.google.Chrome.beta"],
    windows_registry_keys := ["Google Chrome Beta"],
    linux_desktop_ids := ["google-chrome-beta"] },
  { id := "chrome-dev", name := "Google Chrome Dev",
    variant := .Chromium .Dev,
    macos_bundle_ids := ["com.google.Chrome.dev"],
    windows_registry_keys := ["Google Chrome Dev"],
    linux_desktop_ids := ["google-chrome-unstable"] },
  { id := "chrome-canary", name := "Google Chrome Canary",
    variant := .Chromium .Canary,
    macos_bundle_ids := ["com.google.Chrome.canary"],
    windows_registry_keys := ["Google Chrome Canary"],
    linux_desktop_ids := [] },
  { id := "edge", name := "Microsoft Edge",
    variant := .Chromium .Stable,
    macos_bundle_ids := ["com.microsoft.edgemac"],
    windows_registry_keys := ["Microsoft Edge"],
    linux_desktop_ids := ["microsoft-edge", "microsoft-edge-stable"] },
  { id := "edge-beta", name := "Microsoft Edge Beta",
    variant := .Chromium .Beta,
    macos_bundle_ids := ["com.microsoft.edgemac.Beta"],
    windows_registry_keys := ["Microsoft Edge Beta"],
    linux_desktop_ids := ["microsoft-edge-beta"] },
  { id := "edge-dev", name := "Microsoft Edge Dev",
    variant := .Chromium .Dev,
    macos_bundle_ids := ["com.microsoft.edgemac.Dev"],
    windows_registry_keys := ["Microsoft Edge Dev"],
    linux_desktop_ids := ["microsoft-edge-dev"] },
  { id := "edge-canary", name := "Microsoft Edge Canary",
    variant := .Chromium .Canary,
    macos_bundle_ids := ["com.microsoft.edgemac.Canary"],
    windows_registry_keys := ["Microsoft Edge Canary"],
    linux_desktop_ids := [] },
  { id := "brave", name := "Brave Browser",
    variant := .Chromium .Stable,
    macos_bundle_ids := ["com.brave.Browser"],
    windows_registry_keys := ["BraveSoftware Brave-Browser"],
    linux_desktop_ids := ["brave-browser", "brave"] },
  { id := "brave-beta", name := "Brave Browser Beta",
    variant := .Chromium .Beta,
    macos_bundle_ids := ["com.brave.Browser.beta"],
    windows_registry_keys := ["BraveSoftware Brave-Browser-Beta"],
    linux_desktop_ids := ["brave-browser-beta"] },
  { id := "brave-nightly", name := "Brave Browser Nightly",
    variant := .Chromium .Canary,
    macos_bundle_ids := ["com.brave.Browser.nightly"],
    windows_registry_keys := ["BraveSoftware Brave-Browser-Nightly"],
    linux_desktop_ids := ["brave-browser-nightly"] },
  { id := "arc", name := "Arc",
    variant := .Single .Chromium,
    macos_bundle_ids := ["company.thebrowser.Browser"],
    windows_registry_keys := ["Arc"],
    linux_desktop_ids := [] },
  { id := "vivaldi", name := "Vivaldi",
    variant := .Chromium .Stable,
    macos_bundle_ids := ["com.vivaldi.Vivaldi"],
    windows_registry_keys := ["Vivaldi"],
    linux_desktop_ids := ["vivaldi", "vivaldi-stable"] },
  { id := "vivaldi-snapshot", name := "Vivaldi Snapshot",
    variant := .Chromium .Dev,
    macos_bundle_ids := ["com.vivaldi.Vivaldi.snapshot"],
    windows_registry_keys := ["Vivaldi Snapshot"],
    linux_desktop_ids := ["vivaldi-snapshot"] },
  { id := "opera", name := "Opera",
    variant := .Chromium .Stable,
    macos_bundle_ids := ["com.operasoftware.Opera"],
    windows_registry_keys := ["Opera Stable"],
    linux_desktop_ids := ["opera"] },
  { id := "opera-beta", name := "Opera Beta",
    variant := .Chromium .Beta,
    macos_bundle_ids := ["com.operasoftware.OperaNext"],
    windows_registry_keys := ["Opera Beta"],
    linux_desktop_ids := ["opera-beta"] },
  { id := "opera-developer", name := "Opera Developer",
    variant := .Chromium .Dev,
    macos_bundle_ids := ["com.operasoftware.OperaDeveloper"],
    windows_registry_keys := ["Opera Developer"],
    linux_desktop_ids := ["opera-developer"] },
  { id := "opera-gx", name := "Opera GX",
    variant := .Single .Chromium,
    macos_bundle_ids := ["com.operasoftware.OperaGX"],
    windows_registry_keys := ["Opera GX Stable"],
    linux_desktop_ids := [] },
  { id := "chromium", name := "Chromium",
    variant := .Chromium .Stable,
    macos_bundle_ids := ["org.chromium.Chromium"],
    windows_registry_keys := ["Chromium"],
    linux_desktop_ids := ["chromium", "chromium-browser"] },
  { id := "firefox", name := "Firefox",
    variant := .Firefox .Stable,
    macos_bundle_ids := ["org.mozilla.firefox"],
    windows_registry_keys := ["Firefox"],
    linux_desktop_ids := ["firefox"] },
  { id := "firefox-beta", name := "Firefox Beta",
    variant := .Firefox .Beta,
    macos_bundle_ids := ["org.mozilla.firefoxbeta"],
    windows_registry_keys := ["Firefox Beta"],
    linux_desktop_ids := ["firefox-beta"] },
  { id := "firefox-dev", name := "Firefox Developer Edition",
    variant := .Firefox .Dev,
    macos_bundle_ids := ["org.mozilla.firefoxdeveloperedition"],
    windows_registry_keys := ["Firefox Developer Edition"],
    linux_desktop_ids := ["firefox-developer-edition", "firefoxdeveloperedition"] },
  { id := "firefox-nightly", name := "Firefox Nightly",
    variant := .Firefox .Nightly,
    macos_bundle_ids := ["org.mozilla.nightly"],
    windows_registry_keys := ["Firefox Nightly"],
    linux_desktop_ids := ["firefox-nightly"] },
  { id := "firefox-esr", name := "Firefox ESR",
    variant := .Firefox .Esr,
    macos_bundle_ids := ["org.mozilla.firefoxesr"],
    windows_registry_keys := ["Firefox ESR"],
    linux_desktop_ids := ["firefox-esr"] },
  { id := "librewolf", name := "LibreWolf",
    variant := .Single .Firefox,
    macos_bundle_ids := ["io.gitlab.LibreWolf"],
    windows_registry_keys := ["LibreWolf"],
    linux_desktop_ids := ["librewolf", "io.gitlab.librewolf"] },
  { id := "waterfox", name := "Waterfox",
    variant := .Single .Firefox,
    macos_bundle_ids := ["net.waterfox.waterfox"],
    windows_registry_keys := ["Waterfox"],
    linux_desktop_ids := ["waterfox", "waterfox-current"] },
  { id := "floorp", name := "Floorp",
    variant := .Single .Firefox,
    macos_bundle_ids := ["one.ablaze.floorp"],
    windows_registry_keys := ["Floorp"],
    linux_desktop_ids := ["floorp", "one.ablaze.floorp"] },
  { id := "safari", name := "Safari",
    variant := .WebKit .Stable,
    macos_bundle_ids := ["com.apple.Safari"],
    windows_registry_keys := [],
    linux_desktop_ids := [] },
  { id := "safari-preview", name := "Safari Technology Preview",
    variant := .WebKit .TechnologyPreview,
    macos_bundle_ids := ["com.apple.SafariTechnologyPreview"],
    windows_registry_keys := [],
    linux_desktop_ids := [] },
  { id := "gnome-web", name := "GNOME Web",
    variant := .Single .WebKit,
    macos_bundle_ids := [],
    windows_registry_keys := [],
    linux_desktop_ids := ["org.gnome.Epiphany", "epiphany", "epiphany-browser"] }
]

/-- Rust `registry::find_by_id`: first entry with the given canonical id. -/
def find_by_id (id : String) : Option BrowserMeta :=
  KNOWN_BROWSERS.find? (fun meta => meta.id == id)

/-- Rust `registry::find_by_bundle_id`: first entry listing the given macOS
bundle identifier. -/
def find_by_bundle_id (bundle_id : String) : Option BrowserMeta :=
  KNOWN_BROWSERS.find? (fun meta => decide (bundle_id ∈ meta.macos_bundle_ids))

/-- Rust `registry::find_by_registry_key`: first entry listing the given
Windows registry key. -/
def find_by_registry_key (key : String) : Option BrowserMeta :=
  KNOWN_BROWSERS.find? (fun meta => decide (key ∈ meta.windows_registry_keys))

/-- Rust `registry::find_by_desktop_id`: first entry listing the given Linux
desktop id. -/
def find_by_desktop_id (desktop_id : String) : Option BrowserMeta :=
  KNOWN_BROWSERS.find? (fun meta => decide (desktop_id ∈ meta.linux_desktop_ids))

/-! ## Linux platform detector (`browserware-detect/src/platform/linux.rs`)

Subprocess calls are modelled by an explicit environment: `which` models
a successful `which <name>` lookup (already trimmed, `none` on failure),
and `runVersion` models a successful `<executable> --version` run,
returning its stdout. -/

/-- Environment of OS interactions used by the Linux detector. -/
structure DetectEnv where
  which : String → Option String
  runVersion : String → Option String

/-- Parsed `.desktop` file content (`linux.rs` lines 169–175). -/
structure DesktopEntry where
  name : Option String
  exec : Option String
  mime_types : List String
  categories : List String
deriving DecidableEq, Repr

/-- The empty `DesktopEntry` (Rust `Default`). -/
def DesktopEntry.default : DesktopEntry :=
  { name := none, exec := none, mime_types := [], categories := [] }

/-- Rust `DesktopEntry::is_browser` (`linux.rs` lines 179–189): handles an
http-ish MIME type or carries the `WebBrowser` category. -/
def DesktopEntry.is_browser (d : DesktopEntry) : Bool :=
  (d.mime_types.any fun m =>
      m == "x-scheme-handler/http" || m == "x-scheme-handler/https" || m == "text/html")
  || d.categories.any (· == "WebBrowser")

/-- One step of the `.desktop` parsing loop (`linux.rs` lines 199–242):
state is the entry accumulated so far plus the `in_desktop_entry` flag. -/
def desktopLineStep (st : DesktopEntry × Bool) (rawLine : List Char) :
    DesktopEntry × Bool :=
  let line := trimChars rawLine
  if startsWithChar (String.mk line) '[' then
    (st.1, line = "[Desktop Entry]".data)
  else if !st.2 then
    st
  else if line = [] || startsWithChar (String.mk line) '#' then
    st
  else
    match splitOnceChar '=' line with
    | none => st
    | some (key, value) =>
      if key = "Name".data then
        ({ st.1 with name := some (String.mk value) }, st.2)
      else if key = "Exec".data then
        ({ st.1 with exec := some (String.mk value) }, st.2)
      else if key = "MimeType".data then
        ({ st.1 with mime_types :=
            ((splitOnChar ';' value).filter (· ≠ [])).map String.mk }, st.2)
      else if key = "Categories".data then
        ({ st.1 with categories :=
            ((splitOnChar ';' value).filter (· ≠ [])).map String.mk }, st.2)
      else
        st

/-- The entry accumulated by running the parsing loop over every line of
the file content. -/
def desktopEntryOf (content : String) : DesktopEntry :=
  ((splitOnChar '\n' content.data).foldl desktopLineStep
    (DesktopEntry.default, false)).1

/-- Rust `parse_desktop_file` (`linux.rs` lines 193–250), at the level of file
content: runs the line loop, then requires both `Name` and `Exec`
(`entry.name.is_some() && entry.exec.is_some()`). -/
def parse_desktop_file (content : String) : Option DesktopEntry :=
  let entry := desktopEntryOf content
  if entry.name.isSome && entry.exec.isSome then some entry else none

/-- The token loop of `parse_exec_to_path` (`linux.rs` lines 311–366).
The list argument is the remaining suffix of the whitespace-split parts;
`parts.get(i + 1)` and `parts.get(i + 2)` of the source become the heads
of the tail. -/
def parseExecTokens (w : String → Option String) : List String → Option String
  | [] => none
  | part :: rest =>
    if startsWithChar part '%' then
      parseExecTokens w rest
    else if charContains part '=' then
      parseExecTokens w rest
    else if part == "flatpak" && rest.head? == some "run" then
      match (rest.drop 1).head? with
      | some app_id => some ("/usr/bin/flatpak run " ++ app_id)
      | none => some "/usr/bin/flatpak"
    else if part == "snap" && rest.head? == some "run" then
      match (rest.drop 1).head? with
      | some snap_name => some ("/snap/bin/" ++ snap_name)
      | none => some "/usr/bin/snap"
    else if part ∈ (["env", "sh", "-c", "bash"] : List String) then
      parseExecTokens w rest
    else if startsWithChar part '/' then
      some part
    else
      match w part with
      | some resolved =>
        if resolved ≠ "" then some resolved
        else if part ≠ "" && !startsWithChar part '-' then some part
        else parseExecTokens w rest
      | none =>
        if part ≠ "" && !startsWithChar part '-' then some part
        else parseExecTokens w rest

/-- Rust `parse_exec_to_path` (`linux.rs` lines 308–369): extract the
executable path from an `Exec` command line. -/
def parse_exec_to_path (w : String → Option String) (exec : String) :
    Option String :=
  parseExecTokens w (splitWhitespace exec)

/-- The version-likeness test of `parse_version_string`: the word starts
with an ASCII digit and contains a dot. -/
def versionWordTest (word : List Char) : Bool :=
  (word.head?.any Char.isDigit) && word.contains '.'

/-- The trailing-punctuation cleanup of `parse_version_string`
(Rust `trim_end_matches(|c| !c.is_ascii_digit() && c != '.')`). -/
def versionTrimEnd (word : List Char) : List Char :=
  (word.reverse.dropWhile (fun c => !c.isDigit && c != '.')).reverse

/-- The per-word body of the inner `parse_version_string` loop
(`linux.rs` lines 415–423). -/
def versionWordCheck (word : List Char) : Option (List Char) :=
  if versionWordTest word then
    let version := versionTrimEnd word
    if version = [] then none else some version
  else none

/-- The per-line body of the outer `parse_version_string` loop
(`linux.rs` lines 408–425). -/
def versionLineCheck (rawLine : List Char) : Option (List Char) :=
  let line := trimChars rawLine
  if line = [] then none
  else (wsTokens line).findSome? versionWordCheck

/-- Rust `parse_version_string` (`linux.rs` lines 405–428): the first
whitespace token, scanning lines in order, that starts with an ASCII
digit and contains a dot, with trailing non-digit non-dot characters
trimmed (kept only if nonempty after trimming). -/
def parse_version_string (output : String) : Option String :=
  (((splitOnChar '\n' output.data).findSome? versionLineCheck).map String.mk)

/-- Spec-side description of version extraction (following the claim's
words, to be compared with `parse_version_string`): all whitespace
tokens of all (trimmed) lines, in order. -/
def specVersionTokens (output : String) : List (List Char) :=
  (splitOnChar '\n' output.data).flatMap fun rawLine => wsTokens (trimChars rawLine)

/-- Spec-side description of version extraction (following the claim's
words): the first token across all lines that begins with a digit and
contains a dot, with trailing non-digit non-dot characters trimmed. -/
def specVersionExtract (output : String) : Option String :=
  ((specVersionTokens output).find? versionWordTest).map
    fun w => String.mk (versionTrimEnd w)

/-- Rust `extract_version` (`linux.rs` lines 374–397): skipped for empty and
flatpak/snap paths, otherwise parses the `--version` output. -/
def extract_version (env : DetectEnv) (executable : String) : Option String :=
  if executable = "" then none
  else if containsSeq "flatpak run".data executable.data
      || strStartsWith executable "/snap/bin/" then none
  else
    match env.runVersion executable with
    | none => none
    | some out => parse_version_string out

/-- Rust `build_browser_from_meta` (`linux.rs` lines 264–276). -/
def build_browser_from_meta (env : DetectEnv) (meta : BrowserMeta)
    (entry : DesktopEntry) : Browser :=
  let executable := ((entry.exec.bind (parse_exec_to_path env.which)).getD "")
  let version := extract_version env executable
  ((Browser.new meta.id meta.name executable).with_variant
    meta.variant).maybe_with_version version

/-- Rust `build_unknown_browser` (`linux.rs` lines 279–299). -/
def build_unknown_browser (env : DetectEnv) (desktop_id : String)
    (entry : DesktopEntry) : Browser :=
  let name := entry.name.getD desktop_id
  let executable := ((entry.exec.bind (parse_exec_to_path env.which)).getD "")
  let version := extract_version env executable
  ((Browser.new desktop_id name executable).with_variant
    (.Single .Other)).maybe_with_version version

/-- Rust `build_browser` (`linux.rs` lines 253–261). -/
def build_browser (env : DetectEnv) (desktop_id : String)
    (entry : DesktopEntry) : Browser :=
  match find_by_desktop_id desktop_id with
  | some meta => build_browser_from_meta env meta entry
  | none => build_unknown_browser env desktop_id entry

/-- Model of Rust `Path::file_stem` / `Path::extension` on a file name:
split at the last dot, unless there is none or it is the leading
character. -/
def fileSplit (fname : String) : String × Option String :=
  match rfindSub ['.'] fname.data with
  | none => (fname, none)
  | some 0 => (fname, none)
  | some i =>
    (String.mk (fname.data.take i), some (String.mk (fname.data.drop (i + 1))))

/-- The per-file body of the `detect_browsers` loop (`linux.rs` lines
41–86) up to the dedup check: `none` when the file is skipped (wrong
extension, unparsable, not a browser), otherwise the built `Browser`. -/
def candidateOf (env : DetectEnv) (fname content : String) : Option Browser :=
  let (stem, ext) := fileSplit fname
  if ext ≠ some "desktop" then none
  else
    match parse_desktop_file content with
    | none => none
    | some d => if d.is_browser then some (build_browser env stem d) else none

/-- The candidate browsers of a directory scan, in encounter order,
before deduplication. -/
def candidatesOf (env : DetectEnv) (files : List (String × String)) :
    List Browser :=
  files.filterMap fun fc => candidateOf env fc.1 fc.2

/-- The accumulator loop of `detect_browsers` (`linux.rs` lines 27–90):
`seen` is the set of canonical ids already emitted, `acc` the output in
reverse order. -/
def detectGo (env : DetectEnv) :
    List (String × String) → List String → List Browser → List Browser
  | [], _, acc => acc.reverse
  | (fname, content) :: rest, seen, acc =>
    match candidateOf env fname content with
    | none => detectGo env rest seen acc
    | some b =>
      if b.id ∈ seen then detectGo env rest seen acc
      else detectGo env rest (b.id :: seen) (b :: acc)

/-- Rust `detect_browsers` on Linux (`linux.rs` lines 24–91), over the flat,
in-order list of `(file name, file content)` pairs produced by scanning
the search directories. -/
def detect_browsers_linux (env : DetectEnv) (files : List (String × String)) :
    List Browser :=
  detectGo env files [] []

/-- First-occurrence deduplication by canonical id, the reference shape
of the `detect_browsers` accumulator loop: keep an element when its id
is not yet in `seen`, then remember it. -/
def dedupFirst (seen : List String) : List Browser → List Browser
  | [] => []
  | b :: bs =>
    if b.id ∈ seen then dedupFirst seen bs
    else b :: dedupFirst (b.id :: seen) bs

/-! ## macOS nested-app filter (`browserware-detect/src/platform/macos.rs`) -/

/-- Rust `is_nested_app` (`macos.rs` lines 179–190): true when the part of
the path before the last occurrence of `".app"` still contains
`".app/"`. -/
def is_nested_app (app_path : String) : Bool :=
  match rfindSub ".app".data app_path.data with
  | none => false
  | some last_app_pos =>
    containsSeq ".app/".data (app_path.data.take last_app_pos)

/-! ## Orchestration (`browserware-detect/src/lib.rs`)

`detect_browsers()` dispatches to the active platform detector; the
family filter is platform-independent, so it is embedded over the
detected list. -/

/-- Rust `detect_browsers_by_family` (`lib.rs` lines 188–195): filter the
detected list by exact family equality. -/
def detect_browsers_by_family (detected : List Browser)
    (family : BrowserFamily) : List Browser :=
  detected.filter fun b => b.family == family

/-! ## Structured interchange format (serde JSON derivations)

Models of the `Serialize`/`Deserialize` derivations on the data model
(`browser.rs`, `variant.rs`): channel enums serialize as lowercase
(resp. kebab-case) strings, `BrowserVariant` is adjacently tagged with
`tag = "type"` and `content = "value"`, `BrowserId` is a transparent
newtype, `version : Option<String>` serializes as `null` when absent,
and `bundle_id` is omitted entirely when absent
(`skip_serializing_if = "Option::is_none"`). -/

/-- JSON values, restricted to the constructors the data model uses.
Objects are ordered key–value lists; lookup takes the first match. -/
inductive Json
  | null
  | str (s : String)
  | obj (fields : List (String × Json))

/-- First-match field lookup in a JSON object. -/
def jsonLookup (fields : List (String × Json)) (key : String) : Option Json :=
  (fields.find? fun kv => kv.1 == key).map fun kv => kv.2

/-- Serialization of `ChromiumChannel` (`rename_all = "lowercase"`). -/
def encodeChromiumChannel : ChromiumChannel → String
  | .Stable => "stable"
  | .Beta => "beta"
  | .Dev => "dev"
  | .Canary => "canary"

/-- Deserialization of `ChromiumChannel`. -/
def decodeChromiumChannel : String → Option ChromiumChannel
  | "stable" => some .Stable
  | "beta" => some .Beta
  | "dev" => some .Dev
  | "canary" => some .Canary
  | _ => none

/-- Serialization of `FirefoxChannel` (`rename_all = "lowercase"`). -/
def encodeFirefoxChannel : FirefoxChannel → String
  | .Stable => "stable"
  | .Beta => "beta"
  | .Dev => "dev"
  | .Nightly => "nightly"
  | .Esr => "esr"

/-- Deserialization of `FirefoxChannel`. -/
def decodeFirefoxChannel : String → Option FirefoxChannel
  | "stable" => some .Stable
  | "beta" => some .Beta
  | "dev" => some .Dev
  | "nightly" => some .Nightly
  | "esr" => some .Esr
  | _ => none

/-- Serialization of `WebKitChannel` (`rename_all = "kebab-case"`). -/
def encodeWebKitChannel : WebKitChannel → String
  | .Stable => "stable"
  | .TechnologyPreview => "technology-preview"

/-- Deserialization of `WebKitChannel`. -/
def decodeWebKitChannel : String → Option WebKitChannel
  | "stable" => some .Stable
  | "technology-preview" => some .TechnologyPreview
  | _ => none

/-- Serialization of `BrowserFamily` (`rename_all = "lowercase"`). -/
def encodeFamily : BrowserFamily → String
  | .Chromium => "chromium"
  | .Firefox => "firefox"
  | .WebKit => "webkit"
  | .Other => "other"

/-- Deserialization of `BrowserFamily`. -/
def decodeFamily : String → Option BrowserFamily
  | "chromium" => some .Chromium
  | "firefox" => some .Firefox
  | "webkit" => some .WebKit
  | "other" => some .Other
  | _ => none

/-- Serialization of `BrowserVariant` (adjacently tagged:
`{"type": <variant name>, "value": <channel string>}`). -/
def encodeVariant : BrowserVariant → Json
  | .Chromium c => .obj [("type", .str "Chromium"), ("value", .str (encodeChromiumChannel c))]
  | .Firefox c => .obj [("type", .str "Firefox"), ("value", .str (encodeFirefoxChannel c))]
  | .WebKit c => .obj [("type", .str "WebKit"), ("value", .str (encodeWebKitChannel c))]
  | .Single f => .obj [("type", .str "Single"), ("value", .str (encodeFamily f))]

/-- Deserialization of `BrowserVariant`. -/
def decodeVariant (j : Json) : Option BrowserVariant :=
  match j with
  | .obj fields =>
    match jsonLookup fields "type", jsonLookup fields "value" with
    | some (.str tag), some (.str value) =>
      if tag = "Chromium" then (decodeChromiumChannel value).map .Chromium
      else if tag = "Firefox" then (decodeFirefoxChannel value).map .Firefox
      else if tag = "WebKit" then (decodeWebKitChannel value).map .WebKit
      else if tag = "Single" then (decodeFamily value).map .Single
      else none
    | _, _ => none
  | _ => none

/-- Serialization of `Browser`: all fields in declaration order;
`version` as `null` when absent, `bundle_id` omitted when absent. -/
def encodeBrowser (b : Browser) : Json :=
  .obj ([("id", .str b.id), ("name", .str b.name),
         ("variant", encodeVariant b.variant),
         ("version", match b.version with
           | some v => .str v
           | none => .null),
         ("executable", .str b.executable)] ++
        (match b.bundle_id with
         | some s => [("bundle_id", Json.str s)]
         | none => []))

/-- Deserialization of an optional string field: missing or `null` is
`None`, a string is `Some`. -/
def decodeOptString : Option Json → Option (Option String)
  | none => some none
  | some .null => some none
  | some (.str s) => some (some s)
  | some (.obj _) => none

/-- Deserialization of `Browser`. -/
def decodeBrowser (j : Json) : Option Browser :=
  match j with
  | .obj fields =>
    match jsonLookup fields "id" with
    | some (.str id) =>
      match jsonLookup fields "name" with
      | some (.str name) =>
        match (jsonLookup fields "variant").bind decodeVariant with
        | some variant =>
          match decodeOptString (jsonLookup fields "version") with
          | some version =>
            match jsonLookup fields "executable" with
            | some (.str executable) =>
              match decodeOptString (jsonLookup fields "bundle_id") with
              | some bundle_id =>
                some { id := id, name := name, variant := variant,
                       version := version, executable := executable,
                       bundle_id := bundle_id }
              | none => none
            | _ => none
          | none => none
        | none => none
      | _ => none
    | _ => none
  | _ => none

/-! ## Theorems -/

/-- C1: `family` is total on `BrowserVariant` and returns the engine
family implied by the tag: `Chromium(c) ↦ Chromium`, `Firefox(c) ↦
Firefox`, `WebKit(c) ↦ WebKit`, and `Single(f) ↦ f`, for every channel
`c` and family `f`. -/
theorem variant_family_matches_tag :
    (∀ c, (BrowserVariant.Chromium c).family = BrowserFamily.Chromium)
    ∧ (∀ c, (BrowserVariant.Firefox c).family = BrowserFamily.Firefox)
    ∧ (∀ c, (BrowserVariant.WebKit c).family = BrowserFamily.WebKit)
    ∧ (∀ f, (BrowserVariant.Single f).family = f) :=
  ⟨fun _ => rfl, fun _ => rfl, fun _ => rfl, fun _ => rfl⟩

/-- C8: serializing any `BrowserVariant` or `Browser` to the structured
interchange format and deserializing the result yields the original
value, including the optional `version` field and the omitted-when-absent
`bundle_id` field. -/
theorem browser_serde_round_trip :
    (∀ v : BrowserVariant, decodeVariant (encodeVariant v) = some v)
    ∧ (∀ b : Browser, decodeBrowser (encodeBrowser b) = some b) := by
  constructor
  · intro v
    cases v with
    | Chromium c => cases c <;> rfl
    | Firefox c => cases c <;> rfl
    | WebKit c => cases c <;> rfl
    | Single f => cases f <;> rfl
  · intro b
    obtain ⟨id, name, variant, version, executable, bundle_id⟩ := b
    cases variant with
    | Chromium c => cases c <;> cases version <;> cases bundle_id <;> rfl
    | Firefox c => cases c <;> cases version <;> cases bundle_id <;> rfl
    | WebKit c => cases c <;> cases version <;> cases bundle_id <;> rfl
    | Single f => cases f <;> cases version <;> cases bundle_id <;> rfl

/-- C9: `detect_browsers_by_family` returns exactly the detected
browsers whose family equals the given one — membership is equivalent to
(membership in the detected list and family equality), the original
relative order is preserved (the result is a sublist), every matching
element keeps its multiplicity (no duplicate introduced, none omitted),
and nothing of another family appears. -/
theorem detect_browsers_by_family_filter_spec :
    ∀ (detected : List Browser) (family : BrowserFamily),
      (∀ b, b ∈ detect_browsers_by_family detected family ↔
        b ∈ detected ∧ b.family = family)
      ∧ (detect_browsers_by_family detected family).Sublist detected
      ∧ (∀ b, b.family = family →
          (detect_browsers_by_family detected family).count b = detected.count b)
      ∧ (∀ b, b.family ≠ family →
          b ∉ detect_browsers_by_family detected family) := by
  intro detected family
  refine ⟨?_, List.filter_sublist _, ?_, ?_⟩
  · intro b
    simp [detect_browsers_by_family, List.mem_filter]
  · intro b hb
    exact List.count_filter (by simpa using hb)
  · intro b hb hmem
    rw [detect_browsers_by_family, List.mem_filter] at hmem
    exact hb (by simpa using hmem.2)

/-- C9 witness: instantiating the filter specification on a concrete
mixed list. -/
theorem detect_browsers_by_family_filter_spec_witness :
    (Browser.new "chrome" "Google Chrome" "/usr/bin/google-chrome").with_variant
        (.Chromium .Stable) ∉
      detect_browsers_by_family
        [(Browser.new "chrome" "Google Chrome" "/usr/bin/google-chrome").with_variant
           (.Chromium .Stable),
         (Browser.new "firefox" "Firefox" "/usr/bin/firefox").with_variant
           (.Firefox .Stable)]
        BrowserFamily.Firefox := by
  exact (detect_browsers_by_family_filter_spec _ BrowserFamily.Firefox).2.2.2
    _ (by decide)

/-- C6: in the static registry all canonical ids are pairwise distinct
and every entry has a non-empty platform-identifier list for at least
one platform; `find_by_id "chrome"` names `"Google Chrome"`; and each of
the four lookups returns `none` for an identifier matching no entry. -/
theorem known_browsers_registry_spec :
    ((KNOWN_BROWSERS.map BrowserMeta.id).Nodup)
    ∧ (∀ m ∈ KNOWN_BROWSERS,
        (m.available_on_macos || m.available_on_windows
          || m.available_on_linux) = true)
    ∧ ((find_by_id "chrome").map BrowserMeta.name = some "Google Chrome")
    ∧ (∀ s, (∀ m ∈ KNOWN_BROWSERS, m.id ≠ s) → find_by_id s = none)
    ∧ (∀ s, (∀ m ∈ KNOWN_BROWSERS, s ∉ m.macos_bundle_ids) →
        find_by_bundle_id s = none)
    ∧ (∀ s, (∀ m ∈ KNOWN_BROWSERS, s ∉ m.windows_registry_keys) →
        find_by_registry_key s = none)
    ∧ (∀ s, (∀ m ∈ KNOWN_BROWSERS, s ∉ m.linux_desktop_ids) →
        find_by_desktop_id s = none) := by
  refine ⟨by decide, by decide, by decide, ?_, ?_, ?_, ?_⟩
  · intro s h
    exact List.find?_eq_none.mpr fun m hm => by simpa using h m hm
  · intro s h
    exact List.find?_eq_none.mpr fun m hm => by simpa using h m hm
  · intro s h
    exact List.find?_eq_none.mpr fun m hm => by simpa using h m hm
  · intro s h
    exact List.find?_eq_none.mpr fun m hm => by simpa using h m hm

/-- C6 witness: the four lookups at identifiers matching no entry. -/
theorem known_browsers_registry_spec_witness :
    find_by_id "nonexistent-browser" = none
    ∧ find_by_bundle_id "com.nonexistent.browser" = none
    ∧ find_by_registry_key "Nonexistent Browser" = none
    ∧ find_by_desktop_id "nonexistent-browser" = none := by
  have h := known_browsers_registry_spec
  exact ⟨h.2.2.2.1 _ (by decide), h.2.2.2.2.1 _ (by decide),
         h.2.2.2.2.2.1 _ (by decide), h.2.2.2.2.2.2 _ (by decide)⟩

/-- C2 counterexample: a readable `.desktop` file whose
`[Desktop Entry]` section supplies `Name` (but not `Exec`) is still
rejected by `parse_desktop_file`, contrary to the claim that supplying
at least one of `Name`/`Exec` suffices. -/
theorem parse_desktop_file_rejects_name_only :
    (desktopEntryOf
        "[Desktop Entry]\nName=Firefox\nMimeType=x-scheme-handler/http;").name
      = some "Firefox"
    ∧ parse_desktop_file
        "[Desktop Entry]\nName=Firefox\nMimeType=x-scheme-handler/http;"
      = none := by
  constructor
  · rfl
  · rfl

/-- C2 (amended): parsing a readable `.desktop` file rejects it exactly
when its `[Desktop Entry]` section is missing the `Name` key or missing
the `Exec` key; a file is parsed successfully iff it supplies both. -/
theorem parse_desktop_file_requires_name_and_exec :
    ∀ content : String,
      (parse_desktop_file content = none ↔
        (desktopEntryOf content).name = none
        ∨ (desktopEntryOf content).exec = none)
      ∧ (parse_desktop_file content = some (desktopEntryOf content) ↔
        (desktopEntryOf content).name ≠ none
        ∧ (desktopEntryOf content).exec ≠ none) := by
  intro content
  unfold parse_desktop_file
  rcases h1 : (desktopEntryOf content).name with _ | n <;>
    rcases h2 : (desktopEntryOf content).exec with _ | e <;>
      simp [h1, h2]

/-- C2 witness: the amended characterization applied to a concrete file
that supplies both keys and one that supplies neither. -/
theorem parse_desktop_file_requires_name_and_exec_witness :
    parse_desktop_file
        "[Desktop Entry]\nName=Firefox\nExec=/usr/bin/firefox %u"
      = some (desktopEntryOf
        "[Desktop Entry]\nName=Firefox\nExec=/usr/bin/firefox %u")
    ∧ parse_desktop_file "[Desktop Entry]\nComment=empty" = none := by
  constructor
  · exact (parse_desktop_file_requires_name_and_exec _).2.mpr (by decide)
  · exact (parse_desktop_file_requires_name_and_exec _).1.mpr (by decide)

/-- Helper: the `parse_exec_to_path` token loop skips `%`-prefixed field
codes, `=`-containing assignments, and the wrapper tokens
`env`/`sh`/`-c`/`bash`. -/
theorem parseExecTokens_skip (w : String → Option String) (part : String)
    (rest : List String)
    (h : startsWithChar part '%' = true ∨ charContains part '=' = true
      ∨ part ∈ (["env", "sh", "-c", "bash"] : List String)) :
    parseExecTokens w (part :: rest) = parseExecTokens w rest := by
  rcases h with h | h | h
  · simp [parseExecTokens, h]
  · by_cases hp : startsWithChar part '%' = true
    · simp [parseExecTokens, hp]
    · simp [parseExecTokens, hp, h]
  · simp only [List.mem_cons, List.not_mem_nil, or_false] at h
    rcases h with rfl | rfl | rfl | rfl <;> rfl

/-- C3: `Exec`-field resolution skips placeholder, assignment and
wrapper tokens and resolves the first remaining token — in particular
the four reference command lines resolve as the specification states,
for every behaviour of the `which` lookup. -/
theorem parse_exec_to_path_resolution_spec :
    ∀ w : String → Option String,
      (parse_exec_to_path w "/usr/bin/firefox %u" = some "/usr/bin/firefox")
      ∧ (parse_exec_to_path w "env VAR=value /usr/bin/browser %U"
          = some "/usr/bin/browser")
      ∧ (∃ p, parse_exec_to_path w "flatpak run org.mozilla.firefox %u"
            = some p
          ∧ containsSeq "flatpak".data p.data = true)
      ∧ (parse_exec_to_path w "snap run firefox" = some "/snap/bin/firefox")
      ∧ (∀ part rest,
          (startsWithChar part '%' = true ∨ charContains part '=' = true
            ∨ part ∈ (["env", "sh", "-c", "bash"] : List String)) →
          parseExecTokens w (part :: rest) = parseExecTokens w rest) := by
  intro w
  exact ⟨rfl, rfl, ⟨"/usr/bin/flatpak run org.mozilla.firefox", rfl, by decide⟩,
    rfl, parseExecTokens_skip w⟩

/-- C3 witness: the resolution specification applied with a concrete
(always-failing) `which` lookup, with the skip hypothesis discharged at
the concrete token `"%u"`. -/
theorem parse_exec_to_path_resolution_spec_witness :
    parse_exec_to_path (fun _ => none) "/usr/bin/firefox %u"
      = some "/usr/bin/firefox"
    ∧ parseExecTokens (fun _ => none) ["%u", "/usr/bin/firefox"]
      = parseExecTokens (fun _ => none) ["/usr/bin/firefox"] := by
  have h := parse_exec_to_path_resolution_spec (fun _ => none)
  exact ⟨h.1, h.2.2.2.2 "%u" ["/usr/bin/firefox"] (Or.inl (by decide))⟩

/-- C10: `Exec`-field resolution never selects a token containing `=` —
such a token is skipped even when it is an absolute path — and a command
line consisting only of `%`-prefixed field codes, `=`-containing tokens,
and wrapper tokens (`env`, `sh`, `-c`, `bash`) resolves to no
executable. -/
theorem parse_exec_never_selects_assignment :
    ∀ w : String → Option String,
      (∀ part rest, charContains part '=' = true →
        parseExecTokens w (part :: rest) = parseExecTokens w rest)
      ∧ (∀ exec : String,
          (∀ t ∈ splitWhitespace exec,
            startsWithChar t '%' = true ∨ charContains t '=' = true
            ∨ t ∈ (["env", "sh", "-c", "bash"] : List String)) →
          parse_exec_to_path w exec = none)
      ∧ (parse_exec_to_path w "/usr/bin/path=x /usr/bin/firefox"
          = some "/usr/bin/firefox")
      ∧ (parse_exec_to_path w "env GDK_BACKEND=x11 %u sh -c bash" = none) := by
  intro w
  refine ⟨fun part rest h => parseExecTokens_skip w part rest (Or.inr (Or.inl h)),
    ?_, rfl, rfl⟩
  intro exec h
  show parseExecTokens w (splitWhitespace exec) = none
  revert h
  generalize splitWhitespace exec = tokens
  intro h
  induction tokens with
  | nil => rfl
  | cons t ts ih =>
    rw [parseExecTokens_skip w t ts (h t (List.mem_cons_self t ts))]
    exact ih fun x hx => h x (List.mem_cons_of_mem t hx)

/-- C10 witness: the assignment-skip and all-skippable parts applied at
concrete inputs. -/
theorem parse_exec_never_selects_assignment_witness :
    parseExecTokens (fun _ => none) ["VAR=1", "/usr/bin/firefox"]
      = parseExecTokens (fun _ => none) ["/usr/bin/firefox"]
    ∧ parse_exec_to_path (fun _ => none) "env A=1 %u" = none := by
  have h := parse_exec_never_selects_assignment (fun _ => none)
  exact ⟨h.1 "VAR=1" ["/usr/bin/firefox"] (by decide),
    h.2.1 "env A=1 %u" (by decide)⟩

/-- Helper: a word passing the version test keeps at least its leading
digit after the trailing trim. -/
theorem versionTrimEnd_ne_nil (w : List Char) (h : versionWordTest w = true) :
    versionTrimEnd w ≠ [] := by
  unfold versionWordTest at h
  rcases w with _ | ⟨c, cs⟩
  · simp at h
  · have hc : c.isDigit = true := by
      have := (Bool.and_eq_true _ _).mp h |>.1
      simpa using this
    intro hnil
    unfold versionTrimEnd at hnil
    rw [List.reverse_eq_nil_iff, List.dropWhile_eq_nil_iff] at hnil
    have := hnil c (by simp)
    rw [hc] at this
    simp at this

/-- Helper: the per-word loop body is exactly "trim if the test passes". -/
theorem versionWordCheck_eq (w : List Char) :
    versionWordCheck w =
      if versionWordTest w then some (versionTrimEnd w) else none := by
  unfold versionWordCheck
  by_cases h : versionWordTest w = true
  · simp [h, versionTrimEnd_ne_nil w h]
  · simp [h]

/-- Helper: `findSome?` of a guarded check is `find?` then map. -/
theorem findSome?_guard {α β : Type} (p : α → Bool) (g : α → β) :
    ∀ l : List α,
      l.findSome? (fun a => if p a then some (g a) else none)
        = (l.find? p).map g
  | [] => rfl
  | a :: l => by
    by_cases h : p a = true
    · simp [List.findSome?_cons, List.find?_cons, h]
    · simp only [List.findSome?_cons, List.find?_cons, h]
      simp only [Bool.false_eq_true, if_false]
      exact findSome?_guard p g l

/-- Helper: `findSome?` over a `flatMap` searches the pieces in order. -/
theorem findSome?_flatMap {α β γ : Type} (f : β → Option γ) (g : α → List β) :
    ∀ l : List α,
      (l.flatMap g).findSome? f = l.findSome? fun x => (g x).findSome? f
  | [] => rfl
  | a :: l => by
    rw [List.flatMap_cons, List.findSome?_append, List.findSome?_cons]
    rcases h : (g a).findSome? f with _ | v
    · rw [Option.none_or]
      exact findSome?_flatMap f g l
    · rfl

/-- Helper: the per-line loop body searches the line's whitespace tokens. -/
theorem versionLineCheck_eq (rawLine : List Char) :
    versionLineCheck rawLine
      = (wsTokens (trimChars rawLine)).findSome? versionWordCheck := by
  unfold versionLineCheck
  rcases h : trimChars rawLine with _ | ⟨c, cs⟩
  · rfl
  · simp

/-- C4: version-string parsing returns the first whitespace-separated
token across all lines that begins with a digit and contains a dot, with
trailing non-digit non-dot characters trimmed; in particular the three
reference outputs parse as the specification states (first dotted
numeric token wins). -/
theorem parse_version_string_first_dotted_token :
    (∀ output : String, parse_version_string output = specVersionExtract output)
    ∧ parse_version_string "Mozilla Firefox 120.0" = some "120.0"
    ∧ parse_version_string "Google Chrome 120.0.6099.109"
        = some "120.0.6099.109"
    ∧ parse_version_string "Chromium 120.0.6099.109 built on Debian 12.4"
        = some "120.0.6099.109" := by
  refine ⟨?_, by decide, by decide, by decide⟩
  intro output
  unfold parse_version_string specVersionExtract specVersionTokens
  have h1 : ((splitOnChar '\n' output.data).findSome? versionLineCheck)
      = ((splitOnChar '\n' output.data).flatMap
          fun rawLine => wsTokens (trimChars rawLine)).findSome? versionWordCheck := by
    rw [findSome?_flatMap]
    exact congrArg (fun f => List.findSome? f (splitOnChar '\n' output.data))
      (funext versionLineCheck_eq)
  rw [h1]
  have h2 : (((splitOnChar '\n' output.data).flatMap
      fun rawLine => wsTokens (trimChars rawLine)).findSome? versionWordCheck)
      = (((splitOnChar '\n' output.data).flatMap
          fun rawLine => wsTokens (trimChars rawLine)).find? versionWordTest).map
            versionTrimEnd := by
    rw [← findSome?_guard versionWordTest versionTrimEnd]
    exact congrArg
      (fun f => List.findSome? f ((splitOnChar '\n' output.data).flatMap
        fun rawLine => wsTokens (trimChars rawLine)))
      (funext versionWordCheck_eq)
  rw [h2, Option.map_map]
  rfl

/-- Helper: `isPrefixOf` is reflexive. -/
theorem isPrefixOf_self : ∀ l : List Char, l.isPrefixOf l = true
  | [] => rfl
  | c :: cs => by simp [List.isPrefixOf, isPrefixOf_self cs]

/-- Helper: a prefix is no longer than the list. -/
theorem length_le_of_isPrefixOf :
    ∀ p l : List Char, p.isPrefixOf l = true → p.length ≤ l.length
  | [], _, _ => Nat.zero_le _
  | p :: ps, [], h => by simp [List.isPrefixOf] at h
  | p :: ps, x :: xs, h => by
    simp only [List.isPrefixOf, Bool.and_eq_true] at h
    simpa using Nat.succ_le_succ (length_le_of_isPrefixOf ps xs h.2)

/-- Helper: `isPrefixOf` is transitive. -/
theorem isPrefixOf_trans :
    ∀ a b c : List Char,
      a.isPrefixOf b = true → b.isPrefixOf c = true → a.isPrefixOf c = true
  | [], _, _, _, _ => by simp [List.isPrefixOf]
  | x :: xs, [], _, hab, _ => by simp [List.isPrefixOf] at hab
  | x :: xs, y :: ys, [], _, hbc => by simp [List.isPrefixOf] at hbc
  | x :: xs, y :: ys, z :: zs, hab, hbc => by
    simp only [List.isPrefixOf, Bool.and_eq_true, beq_iff_eq] at hab hbc ⊢
    exact ⟨hab.1.trans hbc.1, isPrefixOf_trans xs ys zs hab.2 hbc.2⟩

/-- Helper: substring containment is antitone in the needle. -/
theorem containsSeq_mono (n₁ n₂ : List Char) (hpre : n₁.isPrefixOf n₂ = true) :
    ∀ l : List Char, containsSeq n₂ l = true → containsSeq n₁ l = true := by
  intro l
  induction l with
  | nil =>
    unfold containsSeq
    intro h
    rcases n₂ with _ | ⟨c, cs⟩
    · rcases n₁ with _ | ⟨d, ds⟩
      · rfl
      · simp [List.isPrefixOf] at hpre
    · simp [List.isEmpty] at h
  | cons c cs ih =>
    unfold containsSeq
    intro h
    rcases Bool.or_eq_true _ _ |>.mp h with h1 | h2
    · exact Bool.or_eq_true _ _ |>.mpr
        (Or.inl (isPrefixOf_trans n₁ n₂ (c :: cs) hpre h1))
    · exact Bool.or_eq_true _ _ |>.mpr (Or.inr (ih h2))

/-- Helper: scanning down from a bound of the form `pre.length` finds
the occurrence of `n` at the end of `pre ++ n`. -/
theorem rfindAux_base (n pre : List Char) :
    rfindAux n (pre ++ n) pre.length = some pre.length := by
  have hdrop : (pre ++ n).drop pre.length = n := List.drop_left pre n
  cases h : pre.length with
  | zero =>
    have hpre : pre = [] := List.length_eq_zero.mp h
    subst hpre
    simp [rfindAux, isPrefixOf_self]
  | succ i =>
    have hstep : rfindAux n (pre ++ n) (i + 1)
        = if n.isPrefixOf ((pre ++ n).drop (i + 1)) then some (i + 1)
          else rfindAux n (pre ++ n) i := rfl
    rw [h] at hdrop
    rw [hstep, hdrop, isPrefixOf_self]
    simp

/-- Helper: bounds above `pre.length` contribute no occurrence, so the
scan from `pre.length + k` still returns `pre.length`. -/
theorem rfindAux_step (n pre : List Char) (hn : n ≠ []) :
    ∀ k : Nat, rfindAux n (pre ++ n) (pre.length + k) = some pre.length
  | 0 => rfindAux_base n pre
  | k + 1 => by
    have hfalse : n.isPrefixOf ((pre ++ n).drop (pre.length + (k + 1))) = false := by
      rw [← List.drop_drop, List.drop_left]
      cases hp : n.isPrefixOf (n.drop (k + 1)) with
      | false => rfl
      | true =>
        have hle := length_le_of_isPrefixOf n (n.drop (k + 1)) hp
        rw [List.length_drop] at hle
        have hpos : 0 < n.length := List.length_pos.mpr hn
        omega
    show rfindAux n (pre ++ n) (pre.length + k + 1) = some pre.length
    have : rfindAux n (pre ++ n) (pre.length + k + 1)
        = if n.isPrefixOf ((pre ++ n).drop (pre.length + k + 1))
          then some (pre.length + k + 1)
          else rfindAux n (pre ++ n) (pre.length + k) := rfl
    rw [this, show pre.length + k + 1 = pre.length + (k + 1) from rfl, hfalse]
    simp only [Bool.false_eq_true, if_false]
    exact rfindAux_step n pre hn k

/-- Helper: the last occurrence of a nonempty suffix `n` in `pre ++ n`
is at index `pre.length`. -/
theorem rfindSub_append (n pre : List Char) (hn : n ≠ []) :
    rfindSub n (pre ++ n) = some pre.length := by
  unfold rfindSub
  rw [List.length_append]
  exact rfindAux_step n pre hn n.length

/-- Helper: on a path of the form `pre ++ ".app"`, the nested-app filter
reduces to asking whether `".app/"` occurs in `pre`. -/
theorem is_nested_app_append (pre : String) :
    is_nested_app (pre ++ ".app") = containsSeq ".app/".data pre.data := by
  unfold is_nested_app
  have hdata : (pre ++ ".app").data = pre.data ++ ".app".data := rfl
  rw [hdata, rfindSub_append ".app".data pre.data (by decide)]
  show containsSeq ".app/".data ((pre.data ++ ".app".data).take pre.data.length)
      = containsSeq ".app/".data pre.data
  rw [List.take_left]

/-- C5: the macOS nested-app filter rejects
`/Applications/Foo.app/Contents/Support/Bar.app` and accepts
`/Applications/Safari.app`; in general, for a path `pre ++ ".app"` it
rejects exactly when `pre` still contains an earlier `".app/"` boundary,
and accepts every path whose prefix before the trailing `".app"`
contains no `".app"` segment at all, regardless of length. -/
theorem is_nested_app_spec :
    (is_nested_app "/Applications/Foo.app/Contents/Support/Bar.app" = true)
    ∧ (is_nested_app "/Applications/Safari.app" = false)
    ∧ (∀ pre : String,
        is_nested_app (pre ++ ".app") = containsSeq ".app/".data pre.data)
    ∧ (∀ pre : String, containsSeq ".app".data pre.data = false →
        is_nested_app (pre ++ ".app") = false) := by
  refine ⟨by decide, by decide, is_nested_app_append, ?_⟩
  intro pre h
  rw [is_nested_app_append]
  cases hc : containsSeq ".app/".data pre.data with
  | false => rfl
  | true =>
    have := containsSeq_mono ".app".data ".app/".data (by decide) pre.data hc
    rw [h] at this
    exact absurd this (by simp)

/-- C5 witness: the no-earlier-`.app`-segment acceptance applied to a
long concrete path. -/
theorem is_nested_app_spec_witness :
    is_nested_app
      ("/System/Volumes/Preboot/Cryptexes/App/System/Applications/Safari"
        ++ ".app") = false :=
  is_nested_app_spec.2.2.2
    "/System/Volumes/Preboot/Cryptexes/App/System/Applications/Safari"
    (by decide)

/-- Helper: the detection loop is first-occurrence deduplication of the
candidate list, appended to the reversed accumulator. -/
theorem detectGo_eq (env : DetectEnv) :
    ∀ (files : List (String × String)) (seen : List String) (acc : List Browser),
      detectGo env files seen acc
        = acc.reverse ++ dedupFirst seen (candidatesOf env files)
  | [], seen, acc => by
    simp [detectGo, candidatesOf, dedupFirst]
  | (fname, content) :: rest, seen, acc => by
    have hcand : candidatesOf env ((fname, content) :: rest)
        = match candidateOf env fname content with
          | none => candidatesOf env rest
          | some b => b :: candidatesOf env rest := by
      simp [candidatesOf, List.filterMap_cons]
      rcases candidateOf env fname content with _ | b <;> simp
    rcases hc : candidateOf env fname content with _ | b
    · rw [show detectGo env ((fname, content) :: rest) seen acc
          = detectGo env rest seen acc by simp [detectGo, hc]]
      rw [detectGo_eq env rest seen acc, hcand, hc]
    · by_cases hseen : b.id ∈ seen
      · rw [show detectGo env ((fname, content) :: rest) seen acc
            = detectGo env rest seen acc by simp [detectGo, hc, hseen]]
        rw [detectGo_eq env rest seen acc, hcand, hc]
        simp [dedupFirst, hseen]
      · rw [show detectGo env ((fname, content) :: rest) seen acc
            = detectGo env rest (b.id :: seen) (b :: acc) by
              simp [detectGo, hc, hseen]]
        rw [detectGo_eq env rest (b.id :: seen) (b :: acc), hcand, hc]
        simp [dedupFirst, hseen]

/-- Helper: deduplicated ids are pairwise distinct and avoid `seen`. -/
theorem dedupFirst_ids_nodup :
    ∀ (l : List Browser) (seen : List String),
      ((dedupFirst seen l).map Browser.id).Nodup
      ∧ ∀ i ∈ (dedupFirst seen l).map Browser.id, i ∉ seen
  | [], seen => by simp [dedupFirst]
  | b :: bs, seen => by
    by_cases hseen : b.id ∈ seen
    · simpa [dedupFirst, hseen] using dedupFirst_ids_nodup bs seen
    · have ih := dedupFirst_ids_nodup bs (b.id :: seen)
      refine ⟨?_, ?_⟩
      · rw [show dedupFirst seen (b :: bs)
            = b :: dedupFirst (b.id :: seen) bs by simp [dedupFirst, hseen]]
        rw [List.map_cons, List.nodup_cons]
        exact ⟨fun hmem => (ih.2 _ hmem) (List.mem_cons_self _ _), ih.1⟩
      · rw [show dedupFirst seen (b :: bs)
            = b :: dedupFirst (b.id :: seen) bs by simp [dedupFirst, hseen]]
        rw [List.map_cons]
        intro i hi
        rcases List.mem_cons.mp hi with rfl | hi'
        · exact hseen
        · exact fun hs => (ih.2 i hi') (List.mem_cons_of_mem _ hs)

/-- Helper: deduplication preserves the original relative order. -/
theorem dedupFirst_sublist :
    ∀ (l : List Browser) (seen : List String), (dedupFirst seen l).Sublist l
  | [], _ => List.Sublist.refl []
  | b :: bs, seen => by
    by_cases hseen : b.id ∈ seen
    · rw [show dedupFirst seen (b :: bs) = dedupFirst seen bs by
        simp [dedupFirst, hseen]]
      exact (dedupFirst_sublist bs seen).cons b
    · rw [show dedupFirst seen (b :: bs)
          = b :: dedupFirst (b.id :: seen) bs by simp [dedupFirst, hseen]]
      exact (dedupFirst_sublist bs (b.id :: seen)).cons₂ b

/-- Helper: every candidate id not yet seen is represented in the
deduplicated output. -/
theorem dedupFirst_covers :
    ∀ (l : List Browser) (seen : List String) (b : Browser),
      b ∈ l → b.id ∉ seen → ∃ a ∈ dedupFirst seen l, a.id = b.id
  | [], _, b, hb, _ => absurd hb (List.not_mem_nil b)
  | c :: cs, seen, b, hb, hid => by
    by_cases hseen : c.id ∈ seen
    · rw [show dedupFirst seen (c :: cs) = dedupFirst seen cs by
        simp [dedupFirst, hseen]]
      rcases List.mem_cons.mp hb with rfl | hb'
      · exact absurd hseen hid
      · exact dedupFirst_covers cs seen b hb' hid
    · rw [show dedupFirst seen (c :: cs)
          = c :: dedupFirst (c.id :: seen) cs by simp [dedupFirst, hseen]]
      rcases List.mem_cons.mp hb with rfl | hb'
      · exact ⟨b, List.mem_cons_self _ _, rfl⟩
      · by_cases heq : b.id = c.id
        · exact ⟨c, List.mem_cons_self _ _, heq.symm⟩
        · obtain ⟨a, ha, hae⟩ := dedupFirst_covers cs (c.id :: seen) b hb'
            (by simp [heq, hid])
          exact ⟨a, List.mem_cons_of_mem _ ha, hae⟩

/-- Helper: every element of the deduplicated output is the first
candidate carrying its id. -/
theorem dedupFirst_first :
    ∀ (l : List Browser) (seen : List String) (a : Browser),
      a ∈ dedupFirst seen l →
        a.id ∉ seen ∧ l.find? (fun x => x.id == a.id) = some a
  | [], _, a, ha => by simp [dedupFirst] at ha
  | c :: cs, seen, a, ha => by
    by_cases hseen : c.id ∈ seen
    · rw [show dedupFirst seen (c :: cs) = dedupFirst seen cs by
        simp [dedupFirst, hseen]] at ha
      obtain ⟨hnot, hfind⟩ := dedupFirst_first cs seen a ha
      refine ⟨hnot, ?_⟩
      rw [List.find?_cons]
      have : (c.id == a.id) = false := by
        simp only [beq_eq_false_iff_ne, ne_eq]
        intro h
        exact hnot (h ▸ hseen)
      rw [this]
      exact hfind
    · rw [show dedupFirst seen (c :: cs)
          = c :: dedupFirst (c.id :: seen) cs by simp [dedupFirst, hseen]] at ha
      rcases List.mem_cons.mp ha with rfl | ha'
      · refine ⟨hseen, ?_⟩
        rw [List.find?_cons]
        simp
      · obtain ⟨hnot, hfind⟩ := dedupFirst_first cs (c.id :: seen) a ha'
        have hne : a.id ≠ c.id := fun h => hnot (h ▸ List.mem_cons_self _ _)
        refine ⟨fun hs => hnot (List.mem_cons_of_mem _ hs), ?_⟩
        rw [List.find?_cons]
        have : (c.id == a.id) = false := by
          simp only [beq_eq_false_iff_ne, ne_eq]
          exact fun h => hne h.symm
        rw [this]
        exact hfind

/-- C7: Linux browser detection returns pairwise-distinct canonical
ids; whenever several desktop files resolve to the same canonical id,
only the first-encountered one is kept (each output element is the
first candidate with its id, order is preserved, and every candidate's
id is represented). -/
theorem detect_browsers_linux_dedup_spec :
    ∀ (env : DetectEnv) (files : List (String × String)),
      (((detect_browsers_linux env files).map Browser.id).Nodup)
      ∧ (detect_browsers_linux env files).Sublist (candidatesOf env files)
      ∧ (∀ b ∈ candidatesOf env files,
          ∃ a ∈ detect_browsers_linux env files, a.id = b.id)
      ∧ (∀ a ∈ detect_browsers_linux env files,
          (candidatesOf env files).find? (fun x => x.id == a.id) = some a) := by
  intro env files
  have hq : detect_browsers_linux env files
      = dedupFirst [] (candidatesOf env files) := by
    simpa [detect_browsers_linux] using detectGo_eq env files [] []
  rw [hq]
  refine ⟨(dedupFirst_ids_nodup _ _).1, dedupFirst_sublist _ _, ?_, ?_⟩
  · intro b hb
    exact dedupFirst_covers _ _ b hb (by simp)
  · intro a ha
    exact (dedupFirst_first _ _ a ha).2

/-- C7 witness: two desktop files under different alias basenames both
resolve to the canonical id `"chrome"`; the detected list has distinct
ids and represents that id once. -/
theorem detect_browsers_linux_dedup_spec_witness :
    (((detect_browsers_linux ⟨fun _ => none, fun _ => none⟩
        [("google-chrome.desktop",
          "[Desktop Entry]\nName=Google Chrome\nExec=/usr/bin/google-chrome %U\nMimeType=x-scheme-handler/http;"),
         ("google-chrome-stable.desktop",
          "[Desktop Entry]\nName=Google Chrome\nExec=/usr/bin/google-chrome-stable %U\nMimeType=x-scheme-handler/http;")]).map
        Browser.id).Nodup)
    ∧ ∃ a ∈ detect_browsers_linux ⟨fun _ => none, fun _ => none⟩
        [("google-chrome.desktop",
          "[Desktop Entry]\nName=Google Chrome\nExec=/usr/bin/google-chrome %U\nMimeType=x-scheme-handler/http;"),
         ("google-chrome-stable.desktop",
          "[Desktop Entry]\nName=Google Chrome\nExec=/usr/bin/google-chrome-stable %U\nMimeType=x-scheme-handler/http;")],
        a.id = "chrome" := by
  have h := detect_browsers_linux_dedup_spec ⟨fun _ => none, fun _ => none⟩
    [("google-chrome.desktop",
      "[Desktop Entry]\nName=Google Chrome\nExec=/usr/bin/google-chrome %U\nMimeType=x-scheme-handler/http;"),
     ("google-chrome-stable.desktop",
      "[Desktop Entry]\nName=Google Chrome\nExec=/usr/bin/google-chrome-stable %U\nMimeType=x-scheme-handler/http;")]
  refine ⟨h.1, ?_⟩
  obtain ⟨a, ha, hid⟩ := h.2.2.1
    { id := "chrome", name := "Google Chrome", variant := .Chromium .Stable,
      version := none, executable := "/usr/bin/google-chrome-stable",
      bundle_id := none }
    (by decide)
  exact ⟨a, ha, hid⟩
